import Mathlib

/-!
# HTTPAutoTester

A shallow embedding of `HTTPAutoTester.go` (package `main`): the assertion
stage of `main`, the request builder, the suite loop with its failure flag,
`ansiPrint` and `printTable`, followed by the properties of the program that
its specification states.

Conventions of the embedding.

* A Go `string` is a sequence of bytes, `GoString`; `len` is the number of
  bytes, as in Go.
* A Go `int` is modelled as `Int`.  The only arithmetic of the program is on
  lengths of strings held in memory (a sum of three of them plus ten), so the
  64-bit range is never left.
* Standard output is the list of the lines written, each one the text of one
  print call without its final newline.
* A run-time panic (a nil pointer dereference, `strings.Repeat` with a
  negative count) is an explicit result.
* The parts of the world the program talks to are parameters: `Env` holds the
  error of `http.NewRequest`, the answer of `client.Do` and the key
  canonicalisation of `net/http` headers.
-/

namespace HTTPAutoTester

/-! ## Strings -/

/-- A Go string: a sequence of bytes. -/
abbrev GoString := List UInt8

/-- The bytes of an ASCII literal of the source. -/
def str (s : String) : GoString := s.toList.map (fun c => c.toNat.toUInt8)

/-- Go `len` on a string: the number of bytes, as an `int`. -/
def len (s : GoString) : Int := (s.length : Int)

/-- Go `strconv.Itoa`: the decimal text of an `int`. -/
def Itoa (i : Int) : GoString :=
  if i < 0 then str "-" ++ str (Nat.repr (-i).toNat) else str (Nat.repr i.toNat)

/-- Go `strings.Repeat(s, count)`; `none` is the panic on a negative count. -/
def stringsRepeat (s : GoString) (count : Int) : Option GoString :=
  if count < 0 then none else some (List.replicate count.toNat s).flatten

/-! ## Constants and types of the source -/

def ansiReset : GoString := str "\x1b[0m"
def ansiRed : GoString := str "\x1b[31m"
def ansiGreen : GoString := str "\x1b[32m"
def ansiBgRed : GoString := str "\x1b[41m"
def ansiBgGreen : GoString := str "\x1b[42m"
def ansiBold : GoString := str "\x1b[1m"
def ansiUnderline : GoString := str "\x1b[4m"

/-- The anonymous `struct { Name string; Value string }` of `testStruct`. -/
structure headerStruct where
  Name : GoString
  Value : GoString
  deriving DecidableEq

/-- The source type `testStruct`. -/
structure testStruct where
  Method : GoString
  RequestHeader : List headerStruct
  RequestBody : GoString
  ResponseStatus : Int
  ResponseHeader : List headerStruct
  ResponseBody : GoString
  deriving DecidableEq

/-- The source type `tableStruct`: one row of the mismatch table. -/
structure tableStruct where
  Name : GoString
  Received : GoString
  Should : GoString
  deriving DecidableEq

/-! ## `net/http` values -/

/-- Go `http.Header`, a `map[string][]string`, as an association list. -/
abbrev Header := List (GoString × List GoString)

/-- Go `Header.Get`: the first value stored under the canonical form of the
key, and the empty string when there is none. -/
def headerGet (canon : GoString → GoString) (h : Header) (key : GoString) : GoString :=
  match h.lookup (canon key) with
  | some (v :: _) => v
  | _ => []

/-- Go `Header.Set`: the canonical form of the key is bound to the single
value, replacing what was stored under it. -/
def headerSet (canon : GoString → GoString) (h : Header) (key value : GoString) : Header :=
  (canon key, [value]) :: h.filter (fun p => p.1 ≠ canon key)

/-- The fields of `http.Request` the program determines. -/
structure Request where
  Method : GoString
  URL : GoString
  Header : Header
  Body : GoString
  deriving DecidableEq

/-- The fields of `http.Response` the program reads.  `Body` is the stream of
the body: the bytes the server sends and, in `ReadFail`, whether reading it
fails, after how many bytes and with which error. -/
structure Response where
  StatusCode : Int
  Header : Header
  Body : GoString
  ReadFail : Option (Nat × GoString)
  deriving DecidableEq

/-- Go `ioutil.ReadAll(response.Body)`: the bytes read until the end of the
body or until the error, and that error (`none` for `nil`). -/
def ReadAll (response : Response) : GoString × Option GoString :=
  match response.ReadFail with
  | none => (response.Body, none)
  | some (n, e) => (response.Body.take n, some e)

/-- The world of one run: a stable server and the standard library. -/
structure Env where
  /-- `textproto.CanonicalMIMEHeaderKey`. -/
  canon : GoString → GoString
  /-- The error of `http.NewRequest(method, url, body)`, `none` for `nil`. -/
  newRequestErr : GoString → GoString → Option GoString
  /-- The answer of `client.Do(request)` for a request that is not nil. -/
  clientDo : Request → Except GoString Response

/-! ## `ansiPrint` -/

/-- The loop of `ansiPrint` that builds `format`. -/
def ansiFormat (formatMap : List GoString) : GoString :=
  formatMap.foldl (fun format v =>
    if v = str "red" then format ++ ansiRed
    else if v = str "green" then format ++ ansiGreen
    else if v = str "bgred" then format ++ ansiBgRed
    else if v = str "bggreen" then format ++ ansiBgGreen
    else if v = str "bold" then format ++ ansiBold
    else if v = str "underline" then format ++ ansiUnderline
    else format) []

/-- The source function `ansiPrint`: the line it writes. -/
def ansiPrint (formatMap : List GoString) (text : GoString) : GoString :=
  ansiFormat formatMap ++ text ++ ansiReset

/-! ## `printTable` -/

/-- The three running maxima of `printTable`. -/
structure Widths where
  maxName : Int
  maxReceived : Int
  maxShould : Int
  deriving DecidableEq

/-- The first loop of `printTable`, from the given starting widths. -/
def widthsFrom (w : Widths) (table : List tableStruct) : Widths :=
  table.foldl (fun w v =>
    let w := if len v.Name > w.maxName then { w with maxName := len v.Name } else w
    let w := if len v.Received > w.maxReceived then { w with maxReceived := len v.Received } else w
    if len v.Should > w.maxShould then { w with maxShould := len v.Should } else w) w

/-- The column widths `printTable` computes: the loop started at 4, 8 and 6. -/
def colWidths (table : List tableStruct) : Widths :=
  widthsFrom ⟨4, 8, 6⟩ table

/-- The variable `tabelwidth` of `printTable`. -/
def tabelwidth (w : Widths) : Int :=
  w.maxName + w.maxReceived + w.maxShould + 10

/-- The text of `fmt.Printf("| %s | %s | %s |\n", a, b, c)` without the newline. -/
def printfRow (a b c : GoString) : GoString :=
  str "| " ++ a ++ str " | " ++ b ++ str " | " ++ c ++ str " |"

/-- The second loop of `printTable`: one padded line per row. -/
def printRows (w : Widths) : List tableStruct → Option (List GoString)
  | [] => some []
  | v :: rest => do
    let name := v.Name ++ (← stringsRepeat (str " ") (w.maxName - len v.Name))
    let received := v.Received ++ (← stringsRepeat (str " ") (w.maxReceived - len v.Received))
    let should := v.Should ++ (← stringsRepeat (str " ") (w.maxShould - len v.Should))
    let rest ← printRows w rest
    pure (printfRow name received should :: rest)

/-- The source function `printTable`: the lines it writes, `none` when a
`strings.Repeat` panics. -/
def printTable (table : List tableStruct) : Option (List GoString) := do
  let w := colWidths table
  let top ← stringsRepeat (str "-") (tabelwidth w)
  let titleName := str "Name" ++ (← stringsRepeat (str " ") (w.maxName - 4))
  let titleReceived := str "Received" ++ (← stringsRepeat (str " ") (w.maxReceived - 8))
  let titleShould := str "Should" ++ (← stringsRepeat (str " ") (w.maxShould - 6))
  let title := printfRow titleName titleReceived titleShould
  let mid ← stringsRepeat (str "-") (tabelwidth w)
  let rows ← printRows w table
  let bottom ← stringsRepeat (str "-") (tabelwidth w)
  pure ([top, title, mid] ++ rows ++ [bottom])

/-! ## The body of the loop of `main` -/

/-- The request builder of `main` (the `if`/`else if` on `test.Method`): the
values of `request` and `err` after it.  `request` stays nil (`none`) and `err`
stays nil for a method that is neither `GET` nor `POST`. -/
def buildRequest (env : Env) (url : GoString) (test : testStruct) :
    Option Request × Option GoString :=
  if test.Method = str "GET" then
    let body : GoString := []
    match env.newRequestErr (str "GET") url with
    | some e => (none, some e)
    | none => (some ⟨str "GET", url, [], body⟩, none)
  else if test.Method = str "POST" then
    let body : GoString := if test.RequestBody ≠ [] then test.RequestBody else []
    match env.newRequestErr (str "POST") url with
    | some e => (none, some e)
    | none => (some ⟨str "POST", url, [], body⟩, none)
  else (none, none)

/-- The block "Set Request Header" of `main`.  `request.Header` on a nil
`request` is a nil pointer dereference: the outer `none` is that panic. -/
def setRequestHeader (canon : GoString → GoString) (request : Option Request)
    (headers : List headerStruct) : Option (Option Request) :=
  if headers.length > 0 then
    headers.foldlM (fun (request : Option Request) header =>
      match request with
      | none => none
      | some r => some (some { r with Header := headerSet canon r.Header header.Name header.Value }))
      request
  else some request

/-- The call `client.Do(request)`.  `net/http` reads `req.URL` first, so a nil
`request` is a nil pointer dereference: `none` is that panic. -/
def clientDo (env : Env) (request : Option Request) : Option (Except GoString Response) :=
  match request with
  | none => none
  | some r => some (env.clientDo r)

/-- The block "Check the Response Code" of `main`. -/
def checkStatus (test : testStruct) (response : Response) (errorTable : List tableStruct) :
    List tableStruct :=
  if response.StatusCode ≠ test.ResponseStatus then
    errorTable ++ [⟨str "StatusCode", Itoa response.StatusCode, Itoa test.ResponseStatus⟩]
  else errorTable

/-- The block "Check the Response Header" of `main`. -/
def checkHeader (canon : GoString → GoString) (test : testStruct) (response : Response)
    (errorTable : List tableStruct) : List tableStruct :=
  if test.ResponseHeader.length > 0 then
    test.ResponseHeader.foldl (fun errorTable header =>
      let headerValue := headerGet canon response.Header header.Name
      if headerValue ≠ header.Value then
        errorTable ++ [⟨str "Header " ++ header.Name, headerValue, header.Value⟩]
      else errorTable) errorTable
  else errorTable

/-- The block "Check the Response Body" of `main`: the lines it writes (the
error of a failed read) and the table after it. -/
def checkBody (test : testStruct) (response : Response) (errorTable : List tableStruct) :
    List GoString × List tableStruct :=
  if test.ResponseBody ≠ [] then
    let (responseBody, err) := ReadAll response
    let log : List GoString :=
      match err with
      | some e => [e]
      | none => []
    if responseBody ≠ test.ResponseBody then
      (log, errorTable ++ [⟨str "Body", responseBody, test.ResponseBody⟩])
    else (log, errorTable)
  else ([], errorTable)

/-- The variable `errorTable` of `main` after the three checks of a received
response. -/
def errorTable (canon : GoString → GoString) (test : testStruct) (response : Response) :
    List tableStruct :=
  (checkBody test response (checkHeader canon test response (checkStatus test response []))).2

/-- What `main` writes while checking the body of a received response. -/
def readLog (test : testStruct) (response : Response) : List GoString :=
  (checkBody test response []).1

/-- The verdict block of `main` (`if len(errorTable) == 0`) with the
`fmt.Println("")` after it: the lines written and the new value of
`testFailed`; `none` when `printTable` panics. -/
def report (errorTable : List tableStruct) (testFailed : Bool) :
    Option (List GoString × Bool) :=
  if errorTable.length = 0 then
    some ([ansiPrint [str "green"] (str "successful"), str ""], testFailed)
  else
    match printTable errorTable with
    | none => none
    | some lines =>
      some ([ansiPrint [str "bold", str "red"] (str "failed")] ++ lines ++ [str ""], true)

/-- The result of one pass through the inner loop body. -/
inductive CaseResult where
  /-- The body ended, by `continue` or at its end: lines written, `testFailed`. -/
  | continued (out : List GoString) (testFailed : Bool)
  /-- The body panicked: lines written before the panic. -/
  | panicked (out : List GoString)
  deriving DecidableEq

/-- The line announcing a case: `fmt.Sprintf("%s %s", test.Method, url)` in
bold and underlined. -/
def announce (url : GoString) (test : testStruct) : GoString :=
  ansiPrint [str "bold", str "underline"] (test.Method ++ str " " ++ url)

/-- One pass through the inner loop body of `main` for the case `test` of
`url`, entered with the given value of `testFailed`. -/
def runCase (env : Env) (url : GoString) (test : testStruct) (testFailed : Bool) : CaseResult :=
  let out := [announce url test]
  match buildRequest env url test with
  | (_, some err) => .continued (out ++ [ansiPrint [str "red"] err]) testFailed
  | (request, none) =>
    match setRequestHeader env.canon request test.RequestHeader with
    | none => .panicked out
    | some request =>
      match clientDo env request with
      | none => .panicked out
      | some (.error err) => .continued (out ++ [ansiPrint [str "red"] err]) testFailed
      | some (.ok response) =>
        let errorTable := checkStatus test response []
        let errorTable := checkHeader env.canon test response errorTable
        let (log, errorTable) := checkBody test response errorTable
        match report errorTable testFailed with
        | none => .panicked (out ++ log)
        | some (lines, testFailed) => .continued (out ++ log ++ lines) testFailed

/-! ## The loops and `main` -/

/-- The state the loops carry: standard output so far and `testFailed`. -/
structure RunState where
  out : List GoString
  testFailed : Bool
  deriving DecidableEq

/-- A loop either is still running or has panicked. -/
inductive Progress where
  | running (s : RunState)
  | panicked (out : List GoString)
  deriving DecidableEq

/-- The inner loop `for _, test := range v`. -/
def runCases (env : Env) (url : GoString) : List testStruct → RunState → Progress
  | [], s => .running s
  | test :: rest, s =>
    match runCase env url test s.testFailed with
    | .continued out testFailed => runCases env url rest ⟨s.out ++ out, testFailed⟩
    | .panicked out => .panicked (s.out ++ out)

/-- The outer loop `for url, v := range tests`, over the entries of the map in
the order this run iterates them. -/
def runSuite (env : Env) : List (GoString × List testStruct) → RunState → Progress
  | [], s => .running s
  | (url, v) :: rest, s =>
    match runCases env url v s with
    | .running s => runSuite env rest s
    | .panicked out => .panicked out

/-- One invocation in which `flag.Parse()` returns.  A command line the
package `flag` ends by itself (`-h`, an unknown flag, `-f` without a value)
never reaches the code below `flag.Parse()` and is outside this model. -/
structure Invocation where
  /-- The value of the flag `-f`, empty when the flag is not given. -/
  testsFile : GoString
  /-- The error of `os.Open(*testsFile)`, `none` for `nil`. -/
  openErr : Option GoString
  /-- The error of `Decode`; `main` assigns it and never reads it. -/
  decodeErr : Option GoString
  /-- The map `tests` after `Decode`, in the order this run iterates it. -/
  tests : List (GoString × List testStruct)

/-- How the process ends. -/
inductive Outcome where
  /-- The call `os.Exit(code)`. -/
  | exited (out : List GoString) (code : Int)
  /-- The function `main` returned. -/
  | returned (out : List GoString)
  /-- An unrecovered panic. -/
  | panicked (out : List GoString)
  deriving DecidableEq

/-- The exit status of the process: the argument of `os.Exit`, 0 when `main`
returns, 2 when the Go runtime ends the process on an unrecovered panic. -/
def exitStatus : Outcome → Int
  | .exited _ code => code
  | .returned _ => 0
  | .panicked _ => 2

def bannerSuccessful : GoString := ansiPrint [str "bggreen"] (str "All tests was successful :)")
def bannerFailed : GoString := ansiPrint [str "bgred"] (str "Some tests failed :(")

/-- The final banner of `main`, chosen by `testFailed`. -/
def banner (testFailed : Bool) : GoString :=
  if testFailed = false then bannerSuccessful else bannerFailed

/-- The source function `main` from the return of `flag.Parse()` on.
`flag.PrintDefaults()` writes to standard error and leaves standard output
empty. -/
def main (env : Env) (inv : Invocation) : Outcome :=
  if inv.testsFile = [] then .exited [] 1
  else
    let out := [str "Using File " ++ inv.testsFile]
    match inv.openErr with
    | some _ =>
      .exited (out ++ [ansiPrint [str "red"]
        (str "could not open the " ++ inv.testsFile ++ str " file!!")]) 1
    | none =>
      let testFailed := false
      let out := out ++ [str "Found " ++ Itoa (inv.tests.length : Int) ++ str " Tests", str ""]
      match runSuite env inv.tests ⟨out, testFailed⟩ with
      | .panicked out => .panicked out
      | .running s => .returned (s.out ++ [banner s.testFailed])

/-! ## Auxiliary definitions: the column widths -/

/-- One iteration of the first loop of `printTable`. -/
def widthsStep (w : Widths) (v : tableStruct) : Widths :=
  let w := if len v.Name > w.maxName then { w with maxName := len v.Name } else w
  let w := if len v.Received > w.maxReceived then { w with maxReceived := len v.Received } else w
  if len v.Should > w.maxShould then { w with maxShould := len v.Should } else w

/-- What "the maximum of the start value and the values `f v`" means. -/
def IsMaxOf (m start : Int) (table : List tableStruct) (f : tableStruct → Int) : Prop :=
  start ≤ m ∧ (∀ v ∈ table, f v ≤ m) ∧ (m = start ∨ ∃ v ∈ table, m = f v)

/-! ## Auxiliary definitions: the lines of a table -/

/-- A cell padded with spaces to a width. -/
def padTo (cell : GoString) (width : Int) : GoString :=
  cell ++ (List.replicate (width - len cell).toNat (str " ")).flatten

/-- The line of a data row, its three cells in full, each padded to its column. -/
def rowLine (w : Widths) (v : tableStruct) : GoString :=
  printfRow (padTo v.Name w.maxName) (padTo v.Received w.maxReceived) (padTo v.Should w.maxShould)

/-- The dash line of a table. -/
def dashLine (w : Widths) : GoString :=
  (List.replicate (tabelwidth w).toNat (str "-")).flatten

/-- The title line of a table. -/
def titleLine (w : Widths) : GoString :=
  printfRow (padTo (str "Name") w.maxName) (padTo (str "Received") w.maxReceived)
    (padTo (str "Should") w.maxShould)

/-! ## Auxiliary definitions: the rows as the specification words them -/

/-- The status row, as the specification words it: present when the received
status differs from the expected one. -/
def specStatusRows (test : testStruct) (response : Response) : List tableStruct :=
  if response.StatusCode ≠ test.ResponseStatus then
    [⟨str "StatusCode", Itoa response.StatusCode, Itoa test.ResponseStatus⟩]
  else []

/-- The header rows, as the specification words them: one row for each listed
expected header whose received value differs, in the order listed. -/
def specHeaderRows (canon : GoString → GoString) (test : testStruct) (response : Response) :
    List tableStruct :=
  (test.ResponseHeader.filter
    (fun header => headerGet canon response.Header header.Name ≠ header.Value)).map
    (fun header =>
      ⟨str "Header " ++ header.Name, headerGet canon response.Header header.Name, header.Value⟩)

/-- The body row, as the specification words it: present when the expected body
is not empty and the received body differs from it. -/
def specBodyRows (test : testStruct) (response : Response) : List tableStruct :=
  if test.ResponseBody ≠ [] ∧ (ReadAll response).1 ≠ test.ResponseBody then
    [⟨str "Body", (ReadAll response).1, test.ResponseBody⟩]
  else []

/-- The lines `printTable` writes for a table. -/
def tableLines (table : List tableStruct) : List GoString :=
  [dashLine (colWidths table), titleLine (colWidths table), dashLine (colWidths table)] ++
    table.map (rowLine (colWidths table)) ++ [dashLine (colWidths table)]

/-- The line of the verdict "successful". -/
def lineSuccessful : GoString := ansiPrint [str "green"] (str "successful")

/-- The line of the verdict "failed". -/
def lineFailed : GoString := ansiPrint [str "bold", str "red"] (str "failed")

/-! ## Auxiliary definitions: one case -/

/-- The loop of "Set Request Header" on a request that is not nil. -/
def withHeaders (canon : GoString → GoString) (r : Request) (headers : List headerStruct) :
    Request :=
  headers.foldl (fun r header =>
    { r with Header := headerSet canon r.Header header.Name header.Value }) r

/-- The request `main` sends for a case: built by `buildRequest` without error
and then given the request headers of the case. -/
def requestOf (env : Env) (url : GoString) (test : testStruct) : Option Request :=
  match buildRequest env url test with
  | (some r, none) => some (withHeaders env.canon r test.RequestHeader)
  | _ => none

/-- The response `main` receives for a case: the request was built and
`client.Do` answered it without error. -/
def received (env : Env) (url : GoString) (test : testStruct) : Option Response :=
  match requestOf env url test with
  | some r =>
    match env.clientDo r with
    | .ok response => some response
    | .error _ => none
  | none => none

/-- The method of the case is one `main` builds a request for. -/
def supported (test : testStruct) : Prop :=
  test.Method = str "GET" ∨ test.Method = str "POST"

/-- The lines of the verdict block for a table. -/
def verdictLines (table : List tableStruct) : List GoString :=
  if table = [] then [lineSuccessful, str ""]
  else [lineFailed] ++ tableLines table ++ [str ""]

/-! ## Auxiliary definitions: the suite -/

/-- The case was executed and its mismatch list is not empty. -/
def caseFails (env : Env) (url : GoString) (test : testStruct) : Bool :=
  match received env url test with
  | some response => decide (errorTable env.canon test response ≠ [])
  | none => false

/-- The lines one pass through the loop body writes for a case. -/
def caseOut (env : Env) (url : GoString) (test : testStruct) : List GoString :=
  match runCase env url test false with
  | .continued out _ => out
  | .panicked out => out

/-- The lines a run writes for one entry of the map: those of its cases, in
the order of the list. -/
def urlReport (env : Env) (p : GoString × List testStruct) : List GoString :=
  (p.2.map (caseOut env p.1)).flatten

/-- Some executed case of the entry has a mismatch list that is not empty. -/
def urlFails (env : Env) (p : GoString × List testStruct) : Bool :=
  p.2.any (caseFails env p.1)

/-- Every case of the suite has a method `main` builds a request for. -/
def allSupported (tests : List (GoString × List testStruct)) : Prop :=
  ∀ p ∈ tests, ∀ test ∈ p.2, supported test

/-- The lines a run writes for the entries of the map, in the order iterated. -/
def suiteReport (env : Env) (tests : List (GoString × List testStruct)) : List GoString :=
  (tests.map (urlReport env)).flatten

/-- Some executed case of the suite has a mismatch list that is not empty. -/
def suiteFails (env : Env) (tests : List (GoString × List testStruct)) : Bool :=
  tests.any (urlFails env)

/-- The lines `main` writes before the loop when the file opens. -/
def preamble (inv : Invocation) : List GoString :=
  [str "Using File " ++ inv.testsFile] ++
    [str "Found " ++ Itoa (inv.tests.length : Int) ++ str " Tests", str ""]

/-- The final banner of a run: the last line written when `main` returns. -/
def finalBanner : Outcome → Option GoString
  | .returned out => out.getLast?
  | _ => none

/-- The lines a pass through the loop body wrote. -/
def CaseResult.lines : CaseResult → List GoString
  | .continued out _ => out
  | .panicked out => out

/-! ## Concrete inputs: the scenarios of the specification -/

/-- A server that answers every request with the given response; every
request can be built and header keys are already canonical. -/
def serverOf (response : Response) : Env where
  canon := fun key => key
  newRequestErr := fun _ _ => none
  clientDo := fun _ => .ok response

/-- The URL of the scenarios. -/
def pingURL : GoString := str "http://x/ping"

/-- The case of scenarios A and B: `GET`, expected status 200. -/
def pingTest : testStruct :=
  ⟨str "GET", [], [], 200, [], []⟩

/-- The case of scenario C: the header `Content-Type` must be `application/json`. -/
def contentTypeTest : testStruct :=
  ⟨str "GET", [], [], 200, [⟨str "Content-Type", str "application/json"⟩], []⟩

/-- The case of scenario D: the body must be `ok`. -/
def okBodyTest : testStruct :=
  ⟨str "GET", [], [], 200, [], str "ok"⟩

/-- A response with status 404, no header and an empty body. -/
def notFoundResponse : Response := ⟨404, [], [], none⟩

/-- The response of scenario C: status 200 and `Content-Type: text/plain`. -/
def textPlainResponse : Response :=
  ⟨200, [(str "Content-Type", [str "text/plain"])], [], none⟩

/-- The failing response of scenario D: status 200 and the body `not ok`. -/
def notOkResponse : Response := ⟨200, [], str "not ok", none⟩

/-- A response with status 200, no header and the body `ok`. -/
def okResponse : Response := ⟨200, [], str "ok", none⟩

/-- The response `okResponse` when reading its body fails before any byte
arrives. -/
def brokenBodyResponse : Response :=
  { okResponse with ReadFail := some (0, str "unexpected EOF") }

/-- A case with a method `main` builds no request for, with a request header. -/
def putTest : testStruct :=
  ⟨str "PUT", [⟨str "Accept", str "text/plain"⟩], [], 200, [], []⟩

/-- A case with a method `main` builds no request for, without request header. -/
def putTestNoHeader : testStruct :=
  ⟨str "PUT", [], [], 200, [], []⟩

/-! ## Concrete inputs: suites -/

/-- The suite of scenario A as one invocation. -/
def pingInvocation : Invocation :=
  ⟨str "tests.json", none, none, [(pingURL, [pingTest])]⟩

/-- The URL of the `PUT` case of `mixedInvocation`. -/
def putURL : GoString := str "http://x/put"

/-- A suite of two URLs: the case of scenario A and a case with the method
`PUT`, iterated in this order. -/
def mixedInvocation : Invocation :=
  ⟨str "tests.json", none, none, [(pingURL, [pingTest]), (putURL, [putTestNoHeader])]⟩

/-- A suite whose only case has the method `PUT`. -/
def putInvocation : Invocation :=
  ⟨str "tests.json", none, none, [(pingURL, [putTest])]⟩

/-! ## Lemmas on strings -/

theorem len_append (a b : GoString) : len (a ++ b) = len a + len b := by
  simp [len]

theorem stringsRepeat_of_nonneg (s : GoString) (count : Int) (h : 0 ≤ count) :
    stringsRepeat s count = some (List.replicate count.toNat s).flatten := by
  simp [stringsRepeat, not_lt.mpr h]

theorem length_flatten_replicate (s : GoString) (n : Nat) :
    ((List.replicate n s).flatten).length = n * s.length := by
  induction n with
  | zero => simp
  | succ n ih => simp [List.replicate_succ, ih, Nat.succ_mul, Nat.add_comm]

theorem len_repeat_one (c : UInt8) (count : Int) (h : 0 ≤ count) :
    len (List.replicate count.toNat [c]).flatten = count := by
  simp [len, length_flatten_replicate, Int.toNat_of_nonneg h]

theorem len_printfRow (a b c : GoString) :
    len (printfRow a b c) = len a + len b + len c + 10 := by
  simp only [printfRow, len_append]
  have h1 : len (str "| ") = 2 := by decide
  have h2 : len (str " | ") = 3 := by decide
  have h3 : len (str " |") = 2 := by decide
  rw [h1, h2, h3]; ring

/-! ## Lemmas on the column widths -/

theorem widthsFrom_cons (w : Widths) (v : tableStruct) (t : List tableStruct) :
    widthsFrom w (v :: t) = widthsFrom (widthsStep w v) t := rfl

theorem widthsStep_maxName (w : Widths) (v : tableStruct) :
    (widthsStep w v).maxName = max w.maxName (len v.Name) := by
  simp only [widthsStep]
  split_ifs <;> simp only [gt_iff_lt, not_lt] at * <;> omega

theorem widthsStep_maxReceived (w : Widths) (v : tableStruct) :
    (widthsStep w v).maxReceived = max w.maxReceived (len v.Received) := by
  simp only [widthsStep]
  split_ifs <;> simp only [gt_iff_lt, not_lt] at * <;> omega

theorem widthsStep_maxShould (w : Widths) (v : tableStruct) :
    (widthsStep w v).maxShould = max w.maxShould (len v.Should) := by
  simp only [widthsStep]
  split_ifs <;> simp only [gt_iff_lt, not_lt] at * <;> omega

theorem isMaxOf_cons (m start : Int) (v : tableStruct) (t : List tableStruct)
    (f : tableStruct → Int) (h : IsMaxOf m (max start (f v)) t f) :
    IsMaxOf m start (v :: t) f := by
  obtain ⟨h1, h2, h3⟩ := h
  refine ⟨le_trans (le_max_left _ _) h1, ?_, ?_⟩
  · intro u hu
    rcases List.mem_cons.mp hu with rfl | hu
    · exact le_trans (le_max_right _ _) h1
    · exact h2 u hu
  · rcases h3 with h3 | ⟨u, hu, h3⟩
    · rcases max_choice start (f v) with hm | hm
      · left; rw [h3, hm]
      · right; exact ⟨v, List.mem_cons_self _ _, by rw [h3, hm]⟩
    · right; exact ⟨u, List.mem_cons_of_mem _ hu, h3⟩

theorem widthsFrom_isMax (table : List tableStruct) : ∀ w : Widths,
    IsMaxOf (widthsFrom w table).maxName w.maxName table (fun v => len v.Name) ∧
    IsMaxOf (widthsFrom w table).maxReceived w.maxReceived table (fun v => len v.Received) ∧
    IsMaxOf (widthsFrom w table).maxShould w.maxShould table (fun v => len v.Should) := by
  induction table with
  | nil => intro w; simp [widthsFrom, IsMaxOf]
  | cons v t ih =>
    intro w
    rw [widthsFrom_cons]
    obtain ⟨h1, h2, h3⟩ := ih (widthsStep w v)
    rw [widthsStep_maxName] at h1
    rw [widthsStep_maxReceived] at h2
    rw [widthsStep_maxShould] at h3
    exact ⟨isMaxOf_cons _ _ _ _ _ h1, isMaxOf_cons _ _ _ _ _ h2, isMaxOf_cons _ _ _ _ _ h3⟩

theorem colWidths_isMax (table : List tableStruct) :
    IsMaxOf (colWidths table).maxName 4 table (fun v => len v.Name) ∧
    IsMaxOf (colWidths table).maxReceived 8 table (fun v => len v.Received) ∧
    IsMaxOf (colWidths table).maxShould 6 table (fun v => len v.Should) :=
  widthsFrom_isMax table ⟨4, 8, 6⟩

/-! ## Lemmas on `printTable` -/

theorem len_padTo (cell : GoString) (width : Int) (h : len cell ≤ width) :
    len (padTo cell width) = width := by
  have h0 : (0 : Int) ≤ width - len cell := by omega
  have : len (List.replicate (width - len cell).toNat (str " ")).flatten = width - len cell :=
    len_repeat_one 32 _ h0
  rw [padTo, len_append, this]; ring

theorem printRows_eq (w : Widths) (table : List tableStruct)
    (h1 : ∀ v ∈ table, len v.Name ≤ w.maxName)
    (h2 : ∀ v ∈ table, len v.Received ≤ w.maxReceived)
    (h3 : ∀ v ∈ table, len v.Should ≤ w.maxShould) :
    printRows w table = some (table.map (rowLine w)) := by
  induction table with
  | nil => rfl
  | cons v t ih =>
    have a1 := h1 v (List.mem_cons_self _ _)
    have a2 := h2 v (List.mem_cons_self _ _)
    have a3 := h3 v (List.mem_cons_self _ _)
    have iht := ih (fun u hu => h1 u (List.mem_cons_of_mem _ hu))
      (fun u hu => h2 u (List.mem_cons_of_mem _ hu))
      (fun u hu => h3 u (List.mem_cons_of_mem _ hu))
    simp only [printRows]
    rw [stringsRepeat_of_nonneg _ _ (by omega), stringsRepeat_of_nonneg _ _ (by omega),
      stringsRepeat_of_nonneg _ _ (by omega), iht]
    rfl

theorem printTable_eq (table : List tableStruct) :
    printTable table = some ([dashLine (colWidths table), titleLine (colWidths table),
      dashLine (colWidths table)] ++ table.map (rowLine (colWidths table)) ++
      [dashLine (colWidths table)]) := by
  obtain ⟨⟨n1, n2, _⟩, ⟨r1, r2, _⟩, ⟨s1, s2, _⟩⟩ := colWidths_isMax table
  have hw : 0 ≤ tabelwidth (colWidths table) := by simp only [tabelwidth]; omega
  simp only [printTable]
  rw [stringsRepeat_of_nonneg _ _ hw, stringsRepeat_of_nonneg _ _ (by omega),
    stringsRepeat_of_nonneg _ _ (by omega), stringsRepeat_of_nonneg _ _ (by omega),
    printRows_eq _ _ n2 r2 s2]
  rfl

/-! ## Lemmas on the assertion stage -/

theorem checkStatus_eq (test : testStruct) (response : Response) (acc : List tableStruct) :
    checkStatus test response acc = acc ++ specStatusRows test response := by
  simp only [checkStatus, specStatusRows]
  split_ifs <;> simp

theorem headerLoop_eq (canon : GoString → GoString) (response : Response)
    (headers : List headerStruct) : ∀ acc : List tableStruct,
    headers.foldl (fun errorTable header =>
      let headerValue := headerGet canon response.Header header.Name
      if headerValue ≠ header.Value then
        errorTable ++ [⟨str "Header " ++ header.Name, headerValue, header.Value⟩]
      else errorTable) acc =
    acc ++ (headers.filter
      (fun header => headerGet canon response.Header header.Name ≠ header.Value)).map
      (fun header =>
        ⟨str "Header " ++ header.Name, headerGet canon response.Header header.Name,
          header.Value⟩) := by
  induction headers with
  | nil => intro acc; simp
  | cons h t ih =>
    intro acc
    simp only [List.foldl_cons]
    rw [ih]
    by_cases hv : headerGet canon response.Header h.Name = h.Value
    · simp [hv]
    · simp [hv]

theorem checkHeader_eq (canon : GoString → GoString) (test : testStruct) (response : Response)
    (acc : List tableStruct) :
    checkHeader canon test response acc = acc ++ specHeaderRows canon test response := by
  simp only [checkHeader, specHeaderRows]
  split_ifs with h
  · exact headerLoop_eq canon response test.ResponseHeader acc
  · have : test.ResponseHeader = [] := by
      cases hh : test.ResponseHeader with
      | nil => rfl
      | cons a b => simp [hh] at h
    simp [this]

theorem checkBody_table (test : testStruct) (response : Response) (acc : List tableStruct) :
    (checkBody test response acc).2 = acc ++ specBodyRows test response := by
  simp only [checkBody, specBodyRows]
  by_cases h1 : test.ResponseBody = []
  · simp [h1]
  · by_cases h2 : (ReadAll response).1 = test.ResponseBody
    · simp [h1, h2]
    · simp [h1, h2]

theorem checkBody_log (test : testStruct) (response : Response) (acc : List tableStruct) :
    (checkBody test response acc).1 = readLog test response := by
  simp only [checkBody, readLog]
  by_cases h1 : test.ResponseBody = []
  · simp [h1]
  · by_cases h2 : (ReadAll response).1 = test.ResponseBody
    · simp [h1, h2]
    · simp [h1, h2]

theorem errorTable_eq (canon : GoString → GoString) (test : testStruct) (response : Response) :
    errorTable canon test response =
      specStatusRows test response ++ specHeaderRows canon test response ++
        specBodyRows test response := by
  simp [errorTable, checkBody_table, checkHeader_eq, checkStatus_eq]

theorem report_nil (testFailed : Bool) :
    report [] testFailed = some ([lineSuccessful, str ""], testFailed) := rfl

theorem report_ne_nil (table : List tableStruct) (testFailed : Bool) (h : table ≠ []) :
    report table testFailed = some ([lineFailed] ++ tableLines table ++ [str ""], true) := by
  have hl : table.length ≠ 0 := by simpa using h
  simp only [report, hl, if_false, printTable_eq]
  rfl

/-! ## Lemmas on one case -/

theorem headerLoop_some (canon : GoString → GoString) (headers : List headerStruct) :
    ∀ r : Request,
    headers.foldlM (fun (request : Option Request) header =>
      match request with
      | none => none
      | some r => some (some { r with Header := headerSet canon r.Header header.Name header.Value }))
      (some r) = some (some (withHeaders canon r headers)) := by
  induction headers with
  | nil => intro r; rfl
  | cons h t ih =>
    intro r
    simp only [List.foldlM_cons, withHeaders, List.foldl_cons]
    exact ih _

theorem setRequestHeader_some (canon : GoString → GoString) (r : Request)
    (headers : List headerStruct) :
    setRequestHeader canon (some r) headers = some (some (withHeaders canon r headers)) := by
  simp only [setRequestHeader]
  split_ifs with h
  · exact headerLoop_some canon headers r
  · have : headers = [] := by
      cases headers with
      | nil => rfl
      | cons a b => simp at h
    subst this; rfl

theorem setRequestHeader_none (canon : GoString → GoString) (headers : List headerStruct) :
    setRequestHeader canon none headers = if headers = [] then some none else none := by
  cases headers with
  | nil => rfl
  | cons h t => simp [setRequestHeader, List.foldlM_cons]

theorem report_eq (table : List tableStruct) (testFailed : Bool) :
    report table testFailed =
      some (verdictLines table, testFailed || decide (table ≠ [])) := by
  by_cases h : table = []
  · subst h; simp [report_nil, verdictLines]
  · simp [report_ne_nil table testFailed h, verdictLines, h]

theorem buildRequest_unsupported (env : Env) (url : GoString) (test : testStruct)
    (h : ¬ supported test) : buildRequest env url test = (none, none) := by
  simp only [supported, not_or] at h
  simp [buildRequest, h.1, h.2]

theorem buildRequest_supported (env : Env) (url : GoString) (test : testStruct)
    (h : supported test) :
    (∃ e, buildRequest env url test = (none, some e)) ∨
    (∃ r, buildRequest env url test = (some r, none)) := by
  rcases h with h | h
  · simp only [buildRequest, h, if_true]
    cases env.newRequestErr (str "GET") url with
    | none => right; exact ⟨_, rfl⟩
    | some e => left; exact ⟨e, rfl⟩
  · have hne : str "POST" ≠ str "GET" := by decide
    simp only [buildRequest, h, hne, if_true, if_false]
    cases env.newRequestErr (str "POST") url with
    | none => right; exact ⟨_, rfl⟩
    | some e => left; exact ⟨e, rfl⟩

theorem runCase_unsupported (env : Env) (url : GoString) (test : testStruct) (testFailed : Bool)
    (h : ¬ supported test) :
    runCase env url test testFailed = .panicked [announce url test] := by
  simp only [runCase, buildRequest_unsupported env url test h, setRequestHeader_none]
  by_cases hh : test.RequestHeader = []
  · simp [hh, clientDo]
  · simp [hh]

theorem runCase_buildError (env : Env) (url : GoString) (test : testStruct) (testFailed : Bool)
    (e : GoString) (h : buildRequest env url test = (none, some e)) :
    runCase env url test testFailed =
      .continued ([announce url test] ++ [ansiPrint [str "red"] e]) testFailed := by
  simp only [runCase, h]

theorem runCase_built (env : Env) (url : GoString) (test : testStruct) (testFailed : Bool)
    (r : Request) (h : buildRequest env url test = (some r, none)) :
    runCase env url test testFailed =
      match env.clientDo (withHeaders env.canon r test.RequestHeader) with
      | .error err => .continued ([announce url test] ++ [ansiPrint [str "red"] err]) testFailed
      | .ok response =>
        .continued ([announce url test] ++ readLog test response ++
          verdictLines (errorTable env.canon test response))
          (testFailed || decide (errorTable env.canon test response ≠ [])) := by
  simp only [runCase, h, setRequestHeader_some, clientDo]
  cases hd : env.clientDo (withHeaders env.canon r test.RequestHeader) with
  | error err => rfl
  | ok response =>
    simp only [report_eq, checkBody_log]
    rfl

theorem runCase_received (env : Env) (url : GoString) (test : testStruct) (testFailed : Bool)
    (response : Response) (h : received env url test = some response) :
    runCase env url test testFailed =
      .continued ([announce url test] ++ readLog test response ++
          verdictLines (errorTable env.canon test response))
        (testFailed || decide (errorTable env.canon test response ≠ [])) := by
  unfold received requestOf at h
  split at h
  · rename_i r hr
    split at hr
    · rename_i r0 hb
      simp only [Option.some.injEq] at hr
      subst hr
      rw [runCase_built env url test testFailed r0 hb]
      split at h
      · rename_i resp hresp
        simp only [Option.some.injEq] at h
        subst h
        rw [hresp]
      · simp at h
    · simp at hr
  · simp at h

/-! ## Lemmas on the loops -/

theorem caseFails_iff (env : Env) (url : GoString) (test : testStruct) :
    caseFails env url test = true ↔
      ∃ response, received env url test = some response ∧
        errorTable env.canon test response ≠ [] := by
  unfold caseFails
  cases h : received env url test with
  | none => simp
  | some response => simp

theorem runCase_supported_aux (env : Env) (url : GoString) (test : testStruct)
    (h : supported test) :
    ∃ out, ∀ testFailed, runCase env url test testFailed =
      .continued out (testFailed || caseFails env url test) := by
  rcases buildRequest_supported env url test h with ⟨e, he⟩ | ⟨r, hr⟩
  · have hf : caseFails env url test = false := by
      simp [caseFails, received, requestOf, he]
    exact ⟨_, fun testFailed => by
      rw [runCase_buildError env url test testFailed e he, hf, Bool.or_false]⟩
  · cases hd : env.clientDo (withHeaders env.canon r test.RequestHeader) with
    | error err =>
      have hf : caseFails env url test = false := by
        simp [caseFails, received, requestOf, hr, hd]
      exact ⟨_, fun testFailed => by
        rw [runCase_built env url test testFailed r hr, hd, hf, Bool.or_false]⟩
    | ok response =>
      have hf : caseFails env url test = decide (errorTable env.canon test response ≠ []) := by
        simp [caseFails, received, requestOf, hr, hd]
      exact ⟨_, fun testFailed => by
        rw [runCase_built env url test testFailed r hr, hd, hf]⟩

theorem runCase_supported (env : Env) (url : GoString) (test : testStruct) (testFailed : Bool)
    (h : supported test) :
    runCase env url test testFailed =
      .continued (caseOut env url test) (testFailed || caseFails env url test) := by
  obtain ⟨out, hout⟩ := runCase_supported_aux env url test h
  have : caseOut env url test = out := by simp [caseOut, hout false]
  rw [this, hout]

theorem runCases_supported (env : Env) (url : GoString) (v : List testStruct) :
    ∀ s : RunState, (∀ test ∈ v, supported test) →
      runCases env url v s =
        .running ⟨s.out ++ urlReport env (url, v), s.testFailed || urlFails env (url, v)⟩ := by
  induction v with
  | nil => intro s _; simp [runCases, urlReport, urlFails]
  | cons test rest ih =>
    intro s hs
    have h1 := hs test (List.mem_cons_self _ _)
    have h2 : ∀ t ∈ rest, supported t := fun t ht => hs t (List.mem_cons_of_mem _ ht)
    simp only [runCases, runCase_supported env url test s.testFailed h1]
    rw [ih _ h2]
    simp [urlReport, urlFails, Bool.or_assoc]

theorem runCases_unsupported (env : Env) (url : GoString) (v : List testStruct) :
    ∀ s : RunState, (∃ test ∈ v, ¬ supported test) →
      ∃ out, runCases env url v s = .panicked out := by
  induction v with
  | nil => intro s h; simp at h
  | cons test rest ih =>
    intro s h
    by_cases h1 : supported test
    · have h2 : ∃ t ∈ rest, ¬ supported t := by
        obtain ⟨t, ht, hn⟩ := h
        rcases List.mem_cons.mp ht with rfl | ht
        · exact absurd h1 hn
        · exact ⟨t, ht, hn⟩
      simp only [runCases, runCase_supported env url test s.testFailed h1]
      exact ih _ h2
    · simp only [runCases, runCase_unsupported env url test s.testFailed h1]
      exact ⟨_, rfl⟩

theorem runSuite_supported (env : Env) (tests : List (GoString × List testStruct)) :
    ∀ s : RunState, allSupported tests →
      runSuite env tests s =
        .running ⟨s.out ++ suiteReport env tests, s.testFailed || suiteFails env tests⟩ := by
  induction tests with
  | nil => intro s _; simp [runSuite, suiteReport, suiteFails]
  | cons p rest ih =>
    intro s hs
    obtain ⟨url, v⟩ := p
    have h1 : ∀ test ∈ v, supported test := hs (url, v) (List.mem_cons_self _ _)
    have h2 : allSupported rest := fun q hq => hs q (List.mem_cons_of_mem _ hq)
    simp only [runSuite, runCases_supported env url v s h1]
    rw [ih _ h2]
    simp [suiteReport, suiteFails, Bool.or_assoc]

theorem runSuite_unsupported (env : Env) (tests : List (GoString × List testStruct)) :
    ∀ s : RunState, ¬ allSupported tests → ∃ out, runSuite env tests s = .panicked out := by
  induction tests with
  | nil => intro s h; exact absurd (fun p hp => by simp at hp) h
  | cons p rest ih =>
    intro s h
    obtain ⟨url, v⟩ := p
    by_cases h1 : ∀ test ∈ v, supported test
    · have h2 : ¬ allSupported rest := by
        intro hr
        apply h
        intro q hq
        rcases List.mem_cons.mp hq with rfl | hq
        · exact h1
        · exact hr q hq
      simp only [runSuite, runCases_supported env url v s h1]
      exact ih _ h2
    · have h3 : ∃ test ∈ v, ¬ supported test := by
        by_contra hc
        apply h1
        intro test ht
        by_contra hn
        exact hc ⟨test, ht, hn⟩
      obtain ⟨out, hout⟩ := runCases_unsupported env url v s h3
      simp only [runSuite, hout]
      exact ⟨_, rfl⟩

theorem suiteFails_iff (env : Env) (tests : List (GoString × List testStruct)) :
    suiteFails env tests = true ↔
      ∃ p ∈ tests, ∃ test ∈ p.2, ∃ response,
        received env p.1 test = some response ∧ errorTable env.canon test response ≠ [] := by
  simp only [suiteFails, urlFails, List.any_eq_true, caseFails_iff]

theorem suiteFails_perm (env : Env) (l1 l2 : List (GoString × List testStruct))
    (h : l1.Perm l2) : suiteFails env l1 = suiteFails env l2 := by
  rw [Bool.eq_iff_iff]
  simp only [suiteFails, List.any_eq_true]
  constructor
  · rintro ⟨p, hp, hf⟩; exact ⟨p, h.mem_iff.mp hp, hf⟩
  · rintro ⟨p, hp, hf⟩; exact ⟨p, h.mem_iff.mpr hp, hf⟩

theorem allSupported_perm (l1 l2 : List (GoString × List testStruct))
    (h : l1.Perm l2) : allSupported l1 ↔ allSupported l2 := by
  constructor
  · intro ha p hp; exact ha p (h.mem_iff.mpr hp)
  · intro ha p hp; exact ha p (h.mem_iff.mp hp)

theorem main_supported (env : Env) (inv : Invocation) (hfile : inv.testsFile ≠ [])
    (hopen : inv.openErr = none) (hs : allSupported inv.tests) :
    main env inv =
      .returned (preamble inv ++ suiteReport env inv.tests ++
        [banner (suiteFails env inv.tests)]) := by
  simp only [main, hfile, if_false, hopen, runSuite_supported env inv.tests _ hs,
    Bool.false_or, preamble]

theorem main_unsupported (env : Env) (inv : Invocation) (hfile : inv.testsFile ≠ [])
    (hopen : inv.openErr = none) (hs : ¬ allSupported inv.tests) :
    ∃ out, main env inv = .panicked out := by
  obtain ⟨out, hout⟩ := runSuite_unsupported env inv.tests
    ⟨[str "Using File " ++ inv.testsFile] ++
      [str "Found " ++ Itoa (inv.tests.length : Int) ++ str " Tests", str ""], false⟩ hs
  simp only [main, hfile, if_false, hopen, hout]
  exact ⟨_, rfl⟩

theorem banner_ne : bannerSuccessful ≠ bannerFailed := by decide

theorem main_returned (env : Env) (inv : Invocation) (out : List GoString)
    (h : main env inv = .returned out) :
    inv.testsFile ≠ [] ∧ inv.openErr = none ∧ allSupported inv.tests := by
  have hfile : inv.testsFile ≠ [] := by
    intro hf
    simp [main, hf] at h
  have hopen : inv.openErr = none := by
    cases ho : inv.openErr with
    | none => rfl
    | some e => simp [main, hfile, ho] at h
  refine ⟨hfile, hopen, ?_⟩
  by_contra hs
  obtain ⟨o, ho⟩ := main_unsupported env inv hfile hopen hs
  rw [ho] at h
  cases h

/-! ## Properties of the assertion stage -/

/-- C1: for a received response with at least one differing checked field the
mismatch list is, in this order, the status row if the status differs, one
row per listed expected header whose received value differs, and the body row
if the expected body is not empty and differs; the list is not empty, and the
case writes the verdict "failed" followed by the table and sets `testFailed`. -/
theorem mismatch_rows_of_failing_case (env : Env) (url : GoString) (test : testStruct)
    (testFailed : Bool) (response : Response)
    (hrecv : received env url test = some response)
    (hdiff : response.StatusCode ≠ test.ResponseStatus ∨
      (∃ header ∈ test.ResponseHeader,
        headerGet env.canon response.Header header.Name ≠ header.Value) ∨
      (test.ResponseBody ≠ [] ∧ (ReadAll response).1 ≠ test.ResponseBody)) :
    errorTable env.canon test response =
      (if response.StatusCode ≠ test.ResponseStatus then
        [⟨str "StatusCode", Itoa response.StatusCode, Itoa test.ResponseStatus⟩] else []) ++
      (test.ResponseHeader.filter
        (fun header => headerGet env.canon response.Header header.Name ≠ header.Value)).map
        (fun header => ⟨str "Header " ++ header.Name,
          headerGet env.canon response.Header header.Name, header.Value⟩) ++
      (if test.ResponseBody ≠ [] ∧ (ReadAll response).1 ≠ test.ResponseBody then
        [⟨str "Body", (ReadAll response).1, test.ResponseBody⟩] else []) ∧
    errorTable env.canon test response ≠ [] ∧
    lineFailed = ansiBold ++ ansiRed ++ str "failed" ++ ansiReset ∧
    printTable (errorTable env.canon test response) =
      some (tableLines (errorTable env.canon test response)) ∧
    runCase env url test testFailed =
      .continued ([announce url test] ++ readLog test response ++ [lineFailed] ++
        tableLines (errorTable env.canon test response) ++ [str ""]) true := by
  have heq := errorTable_eq env.canon test response
  have hne : errorTable env.canon test response ≠ [] := by
    rw [heq]
    rcases hdiff with h | ⟨header, hmem, h⟩ | h
    · simp [specStatusRows, h]
    · have : header ∈ test.ResponseHeader.filter
          (fun header => headerGet env.canon response.Header header.Name ≠ header.Value) := by
        simp [List.mem_filter, hmem, h]
      have hne2 : specHeaderRows env.canon test response ≠ [] := by
        intro hnil
        simp only [specHeaderRows, List.map_eq_nil_iff] at hnil
        rw [hnil] at this
        simp at this
      simp [hne2]
    · simp [specBodyRows, h]
  refine ⟨?_, hne, by decide, printTable_eq _, ?_⟩
  · rw [heq]; rfl
  · rw [runCase_received env url test testFailed response hrecv]
    simp [verdictLines, hne]

/-- Scenario B (C1): expected status 200, received status 404: the single row
`StatusCode | 404 | 200` and the verdict "failed".  Scenarios C and D: the
single rows `Header Content-Type | text/plain | application/json` and
`Body | not ok | ok`. -/
theorem mismatch_rows_of_failing_case_witness :
    received (serverOf notFoundResponse) pingURL pingTest = some notFoundResponse ∧
    errorTable (serverOf notFoundResponse).canon pingTest notFoundResponse =
      [⟨str "StatusCode", str "404", str "200"⟩] ∧
    errorTable (serverOf textPlainResponse).canon contentTypeTest textPlainResponse =
      [⟨str "Header Content-Type", str "text/plain", str "application/json"⟩] ∧
    errorTable (serverOf notOkResponse).canon okBodyTest notOkResponse =
      [⟨str "Body", str "not ok", str "ok"⟩] ∧
    runCase (serverOf notFoundResponse) pingURL pingTest false =
      .continued ([announce pingURL pingTest] ++ readLog pingTest notFoundResponse ++
        [lineFailed] ++
        tableLines (errorTable (serverOf notFoundResponse).canon pingTest notFoundResponse) ++
        [str ""]) true :=
  have h := mismatch_rows_of_failing_case (serverOf notFoundResponse) pingURL pingTest false
    notFoundResponse (by decide) (Or.inl (by decide))
  ⟨by decide, by decide, by decide, by decide, h.2.2.2.2⟩

/-- C2: when the received status equals the expected one, every listed
expected header equals the received value for its name and the body equals a
non-empty expected body, the mismatch list is empty, the case writes the
verdict "successful" and leaves `testFailed` as it was. -/
theorem matching_case_is_successful (env : Env) (url : GoString) (test : testStruct)
    (testFailed : Bool) (response : Response)
    (hrecv : received env url test = some response)
    (hstatus : response.StatusCode = test.ResponseStatus)
    (hheader : ∀ header ∈ test.ResponseHeader,
      headerGet env.canon response.Header header.Name = header.Value)
    (hbody : test.ResponseBody ≠ [] → (ReadAll response).1 = test.ResponseBody) :
    errorTable env.canon test response = [] ∧
    lineSuccessful = ansiGreen ++ str "successful" ++ ansiReset ∧
    runCase env url test testFailed =
      .continued ([announce url test] ++ readLog test response ++ [lineSuccessful, str ""])
        testFailed := by
  have hnil : errorTable env.canon test response = [] := by
    rw [errorTable_eq]
    have h1 : specStatusRows test response = [] := by simp [specStatusRows, hstatus]
    have h2 : specHeaderRows env.canon test response = [] := by
      simp only [specHeaderRows, List.map_eq_nil_iff, List.filter_eq_nil_iff]
      intro header hmem
      simp [hheader header hmem]
    have h3 : specBodyRows test response = [] := by
      simp only [specBodyRows]
      by_cases hb : test.ResponseBody = []
      · simp [hb]
      · simp [hbody hb]
    simp [h1, h2, h3]
  refine ⟨hnil, by decide, ?_⟩
  rw [runCase_received env url test testFailed response hrecv]
  simp [verdictLines, hnil]

/-- Scenario D (C2): expected body `ok`, received body `ok`. -/
theorem matching_case_is_successful_witness :
    received (serverOf okResponse) pingURL okBodyTest = some okResponse ∧
    errorTable (serverOf okResponse).canon okBodyTest okResponse = [] ∧
    runCase (serverOf okResponse) pingURL okBodyTest false =
      .continued ([announce pingURL okBodyTest] ++ readLog okBodyTest okResponse ++
        [lineSuccessful, str ""]) false :=
  have h := matching_case_is_successful (serverOf okResponse) pingURL okBodyTest false
    okResponse (by decide) (by decide) (by decide) (by decide)
  ⟨by decide, h.1, h.2.2⟩

theorem header_row_name_ne_body (name : GoString) : str "Header " ++ name ≠ str "Body" := by
  intro h
  have hH : str "Header " = 72 :: str "eader " := by decide
  have hB : str "Body" = 66 :: str "ody" := by decide
  rw [hH, hB, List.cons_append] at h
  injection h with h1 _
  revert h1
  decide

/-- C3: with an empty expected body the body check is skipped whatever the
response body is: nothing is read or logged, the mismatch list is the status
row followed by the header rows and holds no row named `Body`, and two
responses with the same status and headers give the same mismatch list. -/
theorem empty_expected_body_skips_body_check (canon : GoString → GoString)
    (test : testStruct) (hempty : test.ResponseBody = []) :
    (∀ response : Response,
      readLog test response = [] ∧
      errorTable canon test response =
        specStatusRows test response ++ specHeaderRows canon test response ∧
      ∀ row ∈ errorTable canon test response, row.Name ≠ str "Body") ∧
    (∀ r1 r2 : Response, r1.StatusCode = r2.StatusCode → r1.Header = r2.Header →
      errorTable canon test r1 = errorTable canon test r2) := by
  have hb : ∀ response : Response, specBodyRows test response = [] := by
    intro response; simp [specBodyRows, hempty]
  have ht : ∀ response : Response, errorTable canon test response =
      specStatusRows test response ++ specHeaderRows canon test response := by
    intro response; rw [errorTable_eq, hb]; simp
  refine ⟨fun response => ⟨?_, ht response, ?_⟩, ?_⟩
  · simp [readLog, checkBody, hempty]
  · intro row hrow
    rw [ht] at hrow
    rcases List.mem_append.mp hrow with h | h
    · simp only [specStatusRows] at h
      split_ifs at h
      · simp only [List.mem_singleton] at h
        subst h
        show str "StatusCode" ≠ str "Body"
        decide
      · simp at h
    · simp only [specHeaderRows, List.mem_map] at h
      obtain ⟨header, _, rfl⟩ := h
      exact header_row_name_ne_body header.Name
  · intro r1 r2 hs hh
    rw [ht, ht]
    simp [specStatusRows, specHeaderRows, hs, hh]

/-- An instance of C3: the case of scenario A against a response with a body. -/
theorem empty_expected_body_skips_body_check_witness :
    pingTest.ResponseBody = [] ∧
    errorTable (fun key => key) pingTest okResponse = [] ∧
    ∀ row ∈ errorTable (fun key => key) pingTest okResponse, row.Name ≠ str "Body" :=
  have h := empty_expected_body_skips_body_check (fun key => key) pingTest (by decide)
  ⟨by decide, by decide, (h.1 okResponse).2.2⟩

/-- C8, as first stated, fails: the server sends the expected body `ok`, the
read of the body fails before any byte arrives, and the mismatch list holds
the row `Body |  | ok` and the verdict is "failed"; the same response read to
its end gives no row, so the row is there because the read failed. -/
theorem failed_read_gives_body_row :
    okBodyTest.ResponseBody ≠ [] ∧
    brokenBodyResponse = { okResponse with ReadFail := some (0, str "unexpected EOF") } ∧
    ReadAll brokenBodyResponse = (str "", some (str "unexpected EOF")) ∧
    errorTable (fun key => key) okBodyTest brokenBodyResponse =
      [⟨str "Body", str "", str "ok"⟩] ∧
    errorTable (fun key => key) okBodyTest okResponse = [] ∧
    runCase (serverOf brokenBodyResponse) pingURL okBodyTest false =
      .continued ([announce pingURL okBodyTest, str "unexpected EOF", lineFailed] ++
        tableLines [⟨str "Body", str "", str "ok"⟩] ++ [str ""]) true := by
  refine ⟨by decide, by decide, by decide, by decide, by decide, ?_⟩
  rw [runCase_received (serverOf brokenBodyResponse) pingURL okBodyTest false
    brokenBodyResponse (by decide)]
  decide

/-- C8, amended: when the read of the body fails for a case with a non-empty
expected body, the error is written and adds no row of its own: the mismatch
list is the one of a response whose whole body is the bytes read before the
failure and whose read succeeds, namely the status row, the header rows, and
the row `Body` exactly when the bytes read before the failure differ from the
expected body; the status row and the header rows do not depend on the body
or on the failure. -/
theorem failed_read_is_logged_only (canon : GoString → GoString) (test : testStruct)
    (response : Response) (n : Nat) (e : GoString)
    (hbody : test.ResponseBody ≠ []) (hfail : response.ReadFail = some (n, e)) :
    readLog test response = [e] ∧
    errorTable canon test response =
      errorTable canon test { response with Body := response.Body.take n, ReadFail := none } ∧
    errorTable canon test response =
      specStatusRows test response ++ specHeaderRows canon test response ++
        (if response.Body.take n ≠ test.ResponseBody then
          [⟨str "Body", response.Body.take n, test.ResponseBody⟩] else []) ∧
    (∀ (body : GoString) (fail : Option (Nat × GoString)),
      specStatusRows test { response with Body := body, ReadFail := fail } =
        specStatusRows test response ∧
      specHeaderRows canon test { response with Body := body, ReadFail := fail } =
        specHeaderRows canon test response) := by
  have hread : ReadAll response = (response.Body.take n, some e) := by
    simp [ReadAll, hfail]
  refine ⟨?_, ?_, ?_, ?_⟩
  · simp only [readLog, checkBody, hread]
    by_cases h : response.Body.take n = test.ResponseBody
    · simp [hbody, h]
    · simp [hbody, h]
  · rw [errorTable_eq, errorTable_eq]
    simp only [specBodyRows, hread]
    rfl
  · rw [errorTable_eq]
    simp [specBodyRows, hbody, hread]
  · intro body fail
    exact ⟨rfl, rfl⟩

/-- An instance of the amended C8: the read that fails before any byte arrives. -/
theorem failed_read_is_logged_only_witness :
    okBodyTest.ResponseBody ≠ [] ∧
    brokenBodyResponse.ReadFail = some (0, str "unexpected EOF") ∧
    readLog okBodyTest brokenBodyResponse = [str "unexpected EOF"] ∧
    errorTable (fun key => key) okBodyTest brokenBodyResponse =
      errorTable (fun key => key) okBodyTest
        { brokenBodyResponse with Body := brokenBodyResponse.Body.take 0, ReadFail := none } :=
  have h := failed_read_is_logged_only (fun key => key) okBodyTest brokenBodyResponse 0
    (str "unexpected EOF") (by decide) (by decide)
  ⟨by decide, by decide, h.1, h.2.1⟩

/-! ## Properties of the mismatch table -/

/-- C6: for every table, the empty one included, each column width of
`printTable` is the maximum of the length of its label (4, 8, 6) and of the
lengths of the values of the column: it is at least the label length, at
least the length of every cell, and equal to one of them; every padding count
is non-negative, `printTable` does not panic, and every data line holds its
three cells in full, each followed by its padding. -/
theorem printTable_column_widths (table : List tableStruct) :
    (len (str "Name") = 4 ∧ len (str "Received") = 8 ∧ len (str "Should") = 6) ∧
    (4 ≤ (colWidths table).maxName ∧
      (∀ v ∈ table, len v.Name ≤ (colWidths table).maxName) ∧
      ((colWidths table).maxName = 4 ∨ ∃ v ∈ table, (colWidths table).maxName = len v.Name)) ∧
    (8 ≤ (colWidths table).maxReceived ∧
      (∀ v ∈ table, len v.Received ≤ (colWidths table).maxReceived) ∧
      ((colWidths table).maxReceived = 8 ∨
        ∃ v ∈ table, (colWidths table).maxReceived = len v.Received)) ∧
    (6 ≤ (colWidths table).maxShould ∧
      (∀ v ∈ table, len v.Should ≤ (colWidths table).maxShould) ∧
      ((colWidths table).maxShould = 6 ∨
        ∃ v ∈ table, (colWidths table).maxShould = len v.Should)) ∧
    (0 ≤ (colWidths table).maxName - 4 ∧ 0 ≤ (colWidths table).maxReceived - 8 ∧
      0 ≤ (colWidths table).maxShould - 6 ∧
      ∀ v ∈ table, 0 ≤ (colWidths table).maxName - len v.Name ∧
        0 ≤ (colWidths table).maxReceived - len v.Received ∧
        0 ≤ (colWidths table).maxShould - len v.Should) ∧
    printTable table =
      some ([dashLine (colWidths table), titleLine (colWidths table),
          dashLine (colWidths table)] ++
        table.map (fun v => printfRow
          (v.Name ++ (List.replicate
            ((colWidths table).maxName - len v.Name).toNat (str " ")).flatten)
          (v.Received ++ (List.replicate
            ((colWidths table).maxReceived - len v.Received).toNat (str " ")).flatten)
          (v.Should ++ (List.replicate
            ((colWidths table).maxShould - len v.Should).toNat (str " ")).flatten)) ++
        [dashLine (colWidths table)]) := by
  obtain ⟨hn, hr, hs⟩ := colWidths_isMax table
  refine ⟨⟨by decide, by decide, by decide⟩, hn, hr, hs, ⟨?_, ?_, ?_, ?_⟩, printTable_eq table⟩
  · have := hn.1; omega
  · have := hr.1; omega
  · have := hs.1; omega
  · intro v hv
    have h1 := hn.2.1 v hv
    have h2 := hr.2.1 v hv
    have h3 := hs.2.1 v hv
    simp only at h1 h2 h3
    refine ⟨?_, ?_, ?_⟩ <;> omega

theorem len_dashLine (w : Widths) (h : 0 ≤ tabelwidth w) : len (dashLine w) = tabelwidth w :=
  len_repeat_one 45 _ h

/-- C7: for every table `printTable` writes the three dash lines, the title
line and one line per row, and every one of these lines has the length
`maxName + maxReceived + maxShould + 10`. -/
theorem printTable_lines_have_table_width (table : List tableStruct) :
    ∃ lines : List GoString,
      printTable table = some lines ∧
      lines.length = table.length + 4 ∧
      ∀ line ∈ lines, len line =
        (colWidths table).maxName + (colWidths table).maxReceived +
          (colWidths table).maxShould + 10 := by
  obtain ⟨hn, hr, hs⟩ := colWidths_isMax table
  have hw : 0 ≤ tabelwidth (colWidths table) := by
    have := hn.1; have := hr.1; have := hs.1
    simp only [tabelwidth]; omega
  have hdash := len_dashLine (colWidths table) hw
  have htitle : len (titleLine (colWidths table)) = tabelwidth (colWidths table) := by
    have h1 : len (str "Name") = 4 := by decide
    have h2 : len (str "Received") = 8 := by decide
    have h3 : len (str "Should") = 6 := by decide
    rw [titleLine, len_printfRow, len_padTo _ _ (by rw [h1]; exact hn.1),
      len_padTo _ _ (by rw [h2]; exact hr.1), len_padTo _ _ (by rw [h3]; exact hs.1)]
    rfl
  have hrow : ∀ v ∈ table, len (rowLine (colWidths table) v) = tabelwidth (colWidths table) := by
    intro v hv
    rw [rowLine, len_printfRow, len_padTo _ _ (hn.2.1 v hv), len_padTo _ _ (hr.2.1 v hv),
      len_padTo _ _ (hs.2.1 v hv)]
    rfl
  refine ⟨_, printTable_eq table, ?_, ?_⟩
  · simp
  · intro line hline
    simp only [List.mem_append, List.mem_cons, List.mem_map, List.mem_singleton,
      List.not_mem_nil, or_false] at hline
    change len line = tabelwidth (colWidths table)
    rcases hline with ((rfl | rfl | rfl) | ⟨v, hv, rfl⟩) | rfl
    · exact hdash
    · exact htitle
    · exact hdash
    · exact hrow v hv
    · exact hdash

/-! ## Properties of the suite -/

/-- C4: when the file opens and every case has a method `main` builds a
request for, `main` returns after all cases have run and its last line is the
final banner: "All tests was successful" exactly when no executed case of the
suite has a non-empty mismatch list, "Some tests failed" otherwise.  The flag
`testFailed` is false before the loop; a pass through the loop body leaves it
true exactly when it was true before or the case was executed with a
non-empty mismatch list, so it is never reset and a case skipped after a
request or send error leaves it as it was. -/
theorem final_banner_iff_no_failed_case (env : Env) (inv : Invocation)
    (hfile : inv.testsFile ≠ []) (hopen : inv.openErr = none)
    (hs : allSupported inv.tests) :
    main env inv =
      .returned (preamble inv ++ suiteReport env inv.tests ++
        [banner (suiteFails env inv.tests)]) ∧
    (bannerSuccessful = ansiBgGreen ++ str "All tests was successful :)" ++ ansiReset ∧
      bannerFailed = ansiBgRed ++ str "Some tests failed :(" ++ ansiReset) ∧
    (banner (suiteFails env inv.tests) = bannerSuccessful ↔
      ¬ ∃ p ∈ inv.tests, ∃ test ∈ p.2, ∃ response,
        received env p.1 test = some response ∧ errorTable env.canon test response ≠ []) ∧
    (banner (suiteFails env inv.tests) = bannerFailed ↔
      ∃ p ∈ inv.tests, ∃ test ∈ p.2, ∃ response,
        received env p.1 test = some response ∧ errorTable env.canon test response ≠ []) ∧
    (∀ out : List GoString, runSuite env inv.tests ⟨out, false⟩ =
        .running ⟨out ++ suiteReport env inv.tests, suiteFails env inv.tests⟩) ∧
    (∀ (url : GoString) (test : testStruct) (before : Bool), supported test →
      ∃ (lines : List GoString) (after : Bool),
        runCase env url test before = .continued lines after ∧
        (after = true ↔ before = true ∨ ∃ response,
          received env url test = some response ∧
            errorTable env.canon test response ≠ []) ∧
        (received env url test = none → after = before)) := by
  have hiff := suiteFails_iff env inv.tests
  refine ⟨main_supported env inv hfile hopen hs, ⟨by decide, by decide⟩, ?_, ?_, ?_, ?_⟩
  · rw [← hiff]
    cases hf : suiteFails env inv.tests
    · simp [banner]
    · simpa [banner] using fun h => banner_ne h.symm
  · rw [← hiff]
    cases hf : suiteFails env inv.tests
    · simpa [banner] using banner_ne
    · simp [banner]
  · intro out
    rw [runSuite_supported env inv.tests _ hs]
    simp
  · intro url test before hsup
    refine ⟨caseOut env url test, before || caseFails env url test,
      runCase_supported env url test before hsup, ?_, ?_⟩
    · rw [← caseFails_iff]; simp
    · intro hnone
      simp [caseFails, hnone]

/-- Scenarios A and B (C4): one case, expected status 200.  Against a server
that answers 200 `main` returns with the banner of success as its last line;
against a server that answers 404 it writes the verdict "failed", the table
and, as its last line, the banner of failure. -/
theorem final_banner_iff_no_failed_case_witness :
    (pingInvocation.testsFile ≠ [] ∧ pingInvocation.openErr = none ∧
      allSupported pingInvocation.tests) ∧
    main (serverOf okResponse) pingInvocation =
      .returned ([str "Using File tests.json", str "Found 1 Tests", str "",
        announce pingURL pingTest, lineSuccessful, str "", bannerSuccessful]) ∧
    (¬ ∃ p ∈ pingInvocation.tests, ∃ test ∈ p.2, ∃ response,
      received (serverOf okResponse) p.1 test = some response ∧
        errorTable (serverOf okResponse).canon test response ≠ []) ∧
    main (serverOf notFoundResponse) pingInvocation =
      .returned ([str "Using File tests.json", str "Found 1 Tests", str "",
        announce pingURL pingTest, lineFailed] ++
        tableLines [⟨str "StatusCode", str "404", str "200"⟩] ++
        [str "", bannerFailed]) ∧
    (∃ p ∈ pingInvocation.tests, ∃ test ∈ p.2, ∃ response,
      received (serverOf notFoundResponse) p.1 test = some response ∧
        errorTable (serverOf notFoundResponse).canon test response ≠ []) :=
  have hs : allSupported pingInvocation.tests := by
    unfold allSupported supported; decide
  have hpass := final_banner_iff_no_failed_case (serverOf okResponse) pingInvocation
    (by decide) (by decide) hs
  have hfail := final_banner_iff_no_failed_case (serverOf notFoundResponse) pingInvocation
    (by decide) (by decide) hs
  ⟨⟨by decide, by decide, hs⟩,
    hpass.1.trans (by decide),
    hpass.2.2.1.mp (by decide),
    hfail.1.trans (by decide),
    hfail.2.2.2.1.mp (by decide)⟩

/-- C5: for a case whose method is neither `GET` nor `POST` the request
builder leaves `request` nil and `err` nil, and the pass through the loop body
then panics right after the announcement line, with request headers (setting
a header on the nil request) and without (sending the nil request); the loop
and `main` end there. -/
theorem unsupported_method_panics (env : Env) (url : GoString) (test : testStruct)
    (testFailed : Bool) (hget : test.Method ≠ str "GET") (hpost : test.Method ≠ str "POST") :
    buildRequest env url test = (none, none) ∧
    runCase env url test testFailed = .panicked [announce url test] ∧
    ∀ (rest : List testStruct) (s : RunState),
      runCases env url (test :: rest) s = .panicked (s.out ++ [announce url test]) := by
  have hn : ¬ supported test := by
    simp only [supported, not_or]; exact ⟨hget, hpost⟩
  refine ⟨buildRequest_unsupported env url test hn,
    runCase_unsupported env url test testFailed hn, ?_⟩
  intro rest s
  simp only [runCases, runCase_unsupported env url test s.testFailed hn]

/-- The method `PUT` with a request header (C5): the pass panics. -/
theorem unsupported_method_panics_witness :
    putTest.Method ≠ str "GET" ∧ putTest.Method ≠ str "POST" ∧
    putTest.RequestHeader ≠ [] ∧
    runCase (serverOf okResponse) pingURL putTest false =
      .panicked [announce pingURL putTest] :=
  have h := unsupported_method_panics (serverOf okResponse) pingURL putTest false
    (by decide) (by decide)
  ⟨by decide, by decide, by decide, h.2.1⟩

/-- C9 at a suite whose only case has the method `PUT`: the flag `-f` is
given and the file opens, yet the run panics after the announcement of the
case and the exit status is 2, neither 1 nor 0; the same holds when the case
lists no request header. -/
theorem exit_status_of_unsupported_method :
    putInvocation.testsFile ≠ [] ∧ putInvocation.openErr = none ∧
    main (serverOf okResponse) putInvocation =
      .panicked [str "Using File tests.json", str "Found 1 Tests", str "",
        announce pingURL putTest] ∧
    exitStatus (main (serverOf okResponse) putInvocation) = 2 ∧
    exitStatus (main (serverOf okResponse)
      { putInvocation with tests := [(pingURL, [putTestNoHeader])] }) = 2 := by
  decide

/-- In a run in which `flag.Parse()` returns, the exit status is 1 exactly
when the flag `-f` is empty or the file does not open. -/
theorem exitStatus_eq_one_iff (env : Env) (inv : Invocation) :
    exitStatus (main env inv) = 1 ↔ inv.testsFile = [] ∨ inv.openErr ≠ none := by
  by_cases hfile : inv.testsFile = []
  · simp [main, hfile, exitStatus]
  · cases hopen : inv.openErr with
    | some e => simp [main, hfile, hopen, exitStatus]
    | none =>
      by_cases hs : allSupported inv.tests
      · simp [main_supported env inv hfile hopen hs, exitStatus, hfile]
      · obtain ⟨o, ho⟩ := main_unsupported env inv hfile hopen hs
        simp [ho, exitStatus, hfile]

/-- In a run in which `flag.Parse()` returns, the file opens and every case
has the method `GET` or `POST`, `main` returns and the exit status is 0,
whatever the cases gave and whether or not the file decoded. -/
theorem exitStatus_of_supported (env : Env) (inv : Invocation) (hfile : inv.testsFile ≠ [])
    (hopen : inv.openErr = none) (hs : allSupported inv.tests) :
    exitStatus (main env inv) = 0 := by
  rw [main_supported env inv hfile hopen hs]; rfl

/-- With the same server, the lines a case writes do not depend on the state
of the run, and the verdict and the mismatch table of an executed case are
determined by the case and its response; for two iteration orders of the same
mapping the exit status and the final banner are the same, and when the run
returns its output is the same preamble, the reports of the URLs in the order
iterated (a permutation of each other), and the same banner.  Nothing is said
here of what a run that panics has written before the panic. -/
theorem returned_run_invariant_under_url_order (env : Env) (inv : Invocation)
    (tests' : List (GoString × List testStruct)) (hperm : inv.tests.Perm tests') :
    (∀ (url : GoString) (test : testStruct) (f g : Bool),
      (runCase env url test f).lines = (runCase env url test g).lines) ∧
    (∀ (url : GoString) (test : testStruct) (f : Bool) (response : Response),
      received env url test = some response →
        runCase env url test f =
          .continued ([announce url test] ++ readLog test response ++
            verdictLines (errorTable env.canon test response))
            (f || decide (errorTable env.canon test response ≠ []))) ∧
    exitStatus (main env inv) = exitStatus (main env { inv with tests := tests' }) ∧
    finalBanner (main env inv) = finalBanner (main env { inv with tests := tests' }) ∧
    (∀ out, main env inv = .returned out →
      out = preamble inv ++ (inv.tests.map (urlReport env)).flatten ++
        [banner (suiteFails env inv.tests)] ∧
      main env { inv with tests := tests' } =
        .returned (preamble inv ++ (tests'.map (urlReport env)).flatten ++
          [banner (suiteFails env inv.tests)]) ∧
      (inv.tests.map (urlReport env)).Perm (tests'.map (urlReport env))) := by
  have hpre : preamble { inv with tests := tests' } = preamble inv := by
    simp [preamble, hperm.length_eq]
  have hfails := suiteFails_perm env inv.tests tests' hperm
  have hall := allSupported_perm inv.tests tests' hperm
  refine ⟨?_, ?_, ?_, ?_, ?_⟩
  · intro url test f g
    by_cases hs : supported test
    · rw [runCase_supported env url test f hs, runCase_supported env url test g hs]; rfl
    · rw [runCase_unsupported env url test f hs, runCase_unsupported env url test g hs]
  · intro url test f response hrecv
    exact runCase_received env url test f response hrecv
  · by_cases hfile : inv.testsFile = []
    · simp [main, hfile]
    · by_cases hopen : inv.openErr = none
      swap
      · obtain ⟨e, he⟩ := Option.ne_none_iff_exists'.mp hopen
        simp [main, hfile, he]
      · by_cases hs : allSupported inv.tests
        · rw [main_supported env inv hfile hopen hs,
            main_supported env { inv with tests := tests' } hfile hopen (hall.mp hs)]
          rfl
        · obtain ⟨o, ho⟩ := main_unsupported env inv hfile hopen hs
          obtain ⟨o', ho'⟩ := main_unsupported env { inv with tests := tests' } hfile hopen
            (fun h => hs (hall.mpr h))
          rw [ho, ho']; rfl
  · by_cases hfile : inv.testsFile = []
    · simp [main, hfile]
    · by_cases hopen : inv.openErr = none
      swap
      · obtain ⟨e, he⟩ := Option.ne_none_iff_exists'.mp hopen
        simp [main, hfile, he]
      · by_cases hs : allSupported inv.tests
        · rw [main_supported env inv hfile hopen hs,
            main_supported env { inv with tests := tests' } hfile hopen (hall.mp hs)]
          simp [finalBanner, hfails]
        · obtain ⟨o, ho⟩ := main_unsupported env inv hfile hopen hs
          obtain ⟨o', ho'⟩ := main_unsupported env { inv with tests := tests' } hfile hopen
            (fun h => hs (hall.mpr h))
          rw [ho, ho']; rfl
  · intro out hret
    obtain ⟨hfile, hopen, hs⟩ := main_returned env inv out hret
    rw [main_supported env inv hfile hopen hs] at hret
    injection hret with hout
    refine ⟨hout.symm, ?_, hperm.map _⟩
    rw [main_supported env { inv with tests := tests' } hfile hopen (hall.mp hs), hpre,
      ← hfails]
    rfl

/-- C10 at a suite of two URLs, a `GET` case expecting status 200 and a `PUT`
case, against a server that always answers 404.  Iterated with the `GET` case
first, the run writes the verdict "failed" and the table
`StatusCode | 404 | 200` and then panics at the `PUT` case; iterated with the
`PUT` case first, it panics at once and writes no verdict and no table: two
runs of the same suite against the same server report different results. -/
theorem report_depends_on_url_order :
    mixedInvocation.tests.Perm [(putURL, [putTestNoHeader]), (pingURL, [pingTest])] ∧
    main (serverOf notFoundResponse) mixedInvocation =
      .panicked ([str "Using File tests.json", str "Found 2 Tests", str "",
        announce pingURL pingTest, lineFailed] ++
        tableLines [⟨str "StatusCode", str "404", str "200"⟩] ++
        [str "", announce putURL putTestNoHeader]) ∧
    main (serverOf notFoundResponse)
      { mixedInvocation with tests := [(putURL, [putTestNoHeader]), (pingURL, [pingTest])] } =
      .panicked [str "Using File tests.json", str "Found 2 Tests", str "",
        announce putURL putTestNoHeader] := by
  refine ⟨List.Perm.swap _ _ _, by decide, by decide⟩

end HTTPAutoTester
